import Mathlib

/-!
Verification of the m3u8 scraper service (src/main.py) against its design
specification.  The Python source is shallowly embedded: pure helpers become
Lean functions over `String`/`List Char`; the two external capabilities (the
outbound HTTP client and the JavaScript sandbox used for unpacking) are
passed in as explicit oracle parameters, exactly in the places where the
Python code calls `requests` or `execjs`.
-/

set_option maxHeartbeats 1000000

deriving instance DecidableEq for Except

namespace Scraper

/-- ASCII part of the whitespace class used by the re module. -/
def pySpace (c : Char) : Bool :=
  c = ' ' || c = '\t' || c = '\n' || c = '\r' || c = '\x0b' || c = '\x0c'

/-- A quote character, as in the regex character class matching a double or single quote. -/
def isQuote (c : Char) : Bool := c = '"' || c = '\''

/-- Split a character list at the first occurrence of a delimiter; the second
component is `none` when the delimiter does not occur. -/
def breakAt (t : Char) : List Char → List Char × Option (List Char)
  | [] => ([], none)
  | c :: rest =>
    if c = t then ([], some rest)
    else
      let p := breakAt t rest
      (c :: p.1, p.2)

/-- Scheme validity test of urllib.parse: a letter followed by letters, digits,
plus, minus or dot. -/
def validScheme : List Char → Bool
  | [] => false
  | c :: rest => c.isAlpha && rest.all (fun d => d.isAlphanum || d = '+' || d = '-' || d = '.')

/-- Result record of urllib.parse.urlparse (the components the program reads). -/
structure PyUrl where
  scheme : String
  netloc : String
  path : String
  query : String
  fragment : String
deriving DecidableEq

/-- urllib.parse.urlparse, modelled for the absolute http(s)-style URLs the
program handles: the fragment is split at the first hash sign, the query at the
first question mark, the scheme at the first colon when the part before it is a
valid scheme, and a leading double slash introduces the network location, which
extends to the next slash; the rest is the path. -/
def urlparse (url : String) : PyUrl :=
  let f := breakAt '#' url.toList
  let frag := f.2.getD []
  let q := breakAt '?' f.1
  let quer := q.2.getD []
  let s := breakAt ':' q.1
  let hasScheme := s.2.isSome && validScheme s.1
  let scheme := if hasScheme then s.1.map Char.toLower else []
  let rem := if hasScheme then s.2.getD [] else q.1
  match rem with
  | '/' :: '/' :: rest =>
    let netloc := rest.takeWhile (fun c => c ≠ '/')
    let path := rest.dropWhile (fun c => c ≠ '/')
    ⟨String.mk scheme, String.mk netloc, String.mk path, String.mk quer, String.mk frag⟩
  | _ => ⟨String.mk scheme, "", String.mk rem, String.mk quer, String.mk frag⟩

/-- Python str.split with a one-character separator: splits at every
occurrence of the separator and yields at least one part, so the empty string
splits into a single empty part. -/
def splitOnChar (t : Char) : List Char → List (List Char)
  | [] => [[]]
  | c :: rest =>
    if c = t then [] :: splitOnChar t rest
    else
      match splitOnChar t rest with
      | [] => [[c]]
      | p :: ps => (c :: p) :: ps

/-- urllib.parse.parse_qs, modelled as the ordered key/value pair list of the
query string: parts are split on ampersands, each part at its first equals
sign, and pairs with a blank value are dropped (the default behaviour).
Percent decoding is not modelled; the program only compares keys against the
literal key id. -/
def parse_qs_pairs (query : String) : List (String × String) :=
  (splitOnChar '&' query.toList).filterMap (fun part =>
    let b := breakAt '=' part
    match b.2 with
    | none => none
    | some v => if v = [] then none else some (String.mk b.1, String.mk v))

/-- Python str.strip with the slash character: drop leading and trailing
slashes. -/
def stripSlashes (l : List Char) : List Char :=
  ((l.dropWhile (fun c => c = '/')).reverse.dropWhile (fun c => c = '/')).reverse

/-- VideoScraper.extract_slug_from_url.  Mirrors the Python code, including the
fact that str.split with a separator never yields an empty list, so the first
branch is always taken and the query-parameter branch is unreachable; `none`
models the Python value None. -/
def extract_slug_from_url (url : String) : Option String :=
  let parsed := urlparse url
  let path_parts := splitOnChar '/' (stripSlashes parsed.path.toList)
  if h : path_parts ≠ [] then
    some (String.mk (path_parts.getLast h))
  else
    match (parse_qs_pairs parsed.query).find? (fun kv => kv.1 = "id") with
    | some kv => some kv.2
    | none => none

/-- The literal packed-script signature matched by the locator regex. -/
def sigEval : List Char := "eval(function(p,a,c,k,e,d)".toList

/-- Lazy tail of the locator regex: consume up to and including the FIRST
occurrence of a double closing parenthesis, as the non-greedy regex does. -/
def splitAtClose : List Char → Option (List Char × List Char)
  | ')' :: ')' :: rest => some ([')', ')'], rest)
  | c :: rest =>
    match splitAtClose rest with
    | some p => some (c :: p.1, p.2)
    | none => none
  | [] => none

/-- One match attempt of the locator regex at the current position. -/
def attemptEval (l : List Char) : Option (List Char × List Char) :=
  if sigEval.isPrefixOf l then
    match splitAtClose (l.drop sigEval.length) with
    | some p => some (sigEval ++ p.1, p.2)
    | none => none
  else none

/-- re.findall scanning loop: at each position try a match attempt; on success
emit it and resume after the consumed text, otherwise advance one character.
Every successful attempt of the attempts used here consumes at least one
character, so fuel equal to the text length never cuts the scan short. -/
def scanFindall (attempt : List Char → Option (List Char × List Char)) :
    Nat → List Char → List (List Char)
  | 0, _ => []
  | _ + 1, [] => []
  | fuel + 1, c :: rest =>
    match attempt (c :: rest) with
    | some m => m.1 :: scanFindall attempt fuel m.2
    | none => scanFindall attempt fuel rest

/-- re.findall over a whole text. -/
def pyFindall (attempt : List Char → Option (List Char × List Char))
    (l : List Char) : List (List Char) :=
  scanFindall attempt l.length l

/-- VideoScraper.find_eval_packed_js: all non-overlapping matches, in order of
appearance, of the non-greedy packed-script regex. -/
def find_eval_packed_js (html : String) : List String :=
  (pyFindall attemptEval html.toList).map String.mk

/-- Balanced-parenthesis tail: consume until the nesting depth opened by the
call returns to zero. -/
def splitBalanced (depth : Nat) : List Char → Option (List Char × List Char)
  | [] => none
  | c :: rest =>
    if c = ')' then
      if depth = 1 then some ([c], rest)
      else
        match splitBalanced (depth - 1) rest with
        | some p => some (c :: p.1, p.2)
        | none => none
    else
      match splitBalanced (if c = '(' then depth + 1 else depth) rest with
      | some p => some (c :: p.1, p.2)
      | none => none

/-- Modelled from the spec: a locator whose matches extend from the signature
through to the balanced closing of the call (the signature leaves one
parenthesis open). -/
def attemptEvalSpec (l : List Char) : Option (List Char × List Char) :=
  if sigEval.isPrefixOf l then
    match splitBalanced 1 (l.drop sigEval.length) with
    | some p => some (sigEval ++ p.1, p.2)
    | none => none
  else none

/-- Modelled from the spec: the packed-script locator as the spec words it,
with each match running to the balanced closing of the call. -/
def find_eval_packed_js_spec (html : String) : List String :=
  (pyFindall attemptEvalSpec html.toList).map String.mk

/-- Substring occurrence test for character lists. -/
def occursIn (pat : List Char) : List Char → Bool
  | [] => pat.isEmpty
  | c :: rest => pat.isPrefixOf (c :: rest) || occursIn pat rest

/-- Modelled from the spec (amended claim): a lazy locator match is the fixed
signature followed by a tail that ends at the FIRST double closing parenthesis
after the signature: the tail up to the final two characters contains no
earlier double closing parenthesis. -/
def isLazyMatch (m : List Char) : Prop :=
  ∃ a0, m = sigEval ++ a0 ++ [')', ')'] ∧
    occursIn [')', ')'] (a0 ++ [')']) = false

/-- Modelled from the spec: a position (given as the suffix starting there)
admits a locator match when the signature is a prefix there and a double
closing parenthesis occurs somewhere after the signature. -/
def lazyMatchExists (s : List Char) : Prop :=
  sigEval.isPrefixOf s = true ∧
  occursIn [')', ')'] (s.drop sigEval.length) = true

/-- No position strictly inside the gap `pre` (the text continuing as `t`)
admits a locator match: the leftmost-match completeness condition for one
gap. -/
def noMatchBefore (pre t : List Char) : Prop :=
  ∀ p s, pre = p ++ s → s ≠ [] → ¬ lazyMatchExists (s ++ t)

/-- No position of the text admits a locator match. -/
def noMatchAnywhere (l : List Char) : Prop :=
  ∀ p s, l = p ++ s → ¬ lazyMatchExists s

/-- Modelled from the spec (amended claim): full relational characterisation
of the locator output.  The text decomposes into alternating gaps and matches;
the returned substrings are exactly the matches, in order of appearance and
non-overlapping; every match begins at the signature and extends lazily to the
first following double closing parenthesis; no position inside a gap admits a
match (so no match is missed, and each match starts at the leftmost admitting
position); an empty result means no position of the text admits a match. -/
inductive LazyFindall : List Char → List (List Char) → Prop where
  | nil : ∀ l, noMatchAnywhere l → LazyFindall l []
  | cons : ∀ pre m rest ms, isLazyMatch m → noMatchBefore pre (m ++ rest) →
      LazyFindall rest ms → LazyFindall (pre ++ (m ++ rest)) (m :: ms)

/-- The manifest file extension the extraction patterns pivot on. -/
def m3u8Chars : List Char := ".m3u8".toList

/-- First-match attempt for the sources-array pattern: the literal key sources,
optional whitespace, a colon, optional whitespace, an opening square bracket,
then a non-empty greedy run of characters other than a closing square bracket,
which must be followed by one; the run is the captured group. -/
def attemptSources (l : List Char) : Option (List Char) :=
  if "sources".toList.isPrefixOf l then
    match (l.drop 7).dropWhile pySpace with
    | ':' :: l2 =>
      match l2.dropWhile pySpace with
      | '[' :: l3 =>
        let content := l3.takeWhile (fun c => c ≠ ']')
        match l3.dropWhile (fun c => c ≠ ']') with
        | _ :: _ => if content ≠ [] then some content else none
        | [] => none
      | _ => none
    | _ => none
  else none

/-- re.findall first match (the program reads only index zero) of the
sources-array pattern: try at each position, advancing one character on
failure. -/
def findSourcesAux : List Char → Option (List Char)
  | [] => none
  | c :: rest =>
    match attemptSources (c :: rest) with
    | some content => some content
    | none => findSourcesAux rest

/-- One attempt of the file-entry pattern: the literal key file, optional
whitespace, a colon, optional whitespace, an opening quote, then the captured
run of non-quote characters up to the closing quote; the run must contain the
manifest extension at an index of at least one (the pattern requires a
non-empty segment before the extension). -/
def attemptFile (l : List Char) : Option (List Char × List Char) :=
  if "file".toList.isPrefixOf l then
    match (l.drop 4).dropWhile pySpace with
    | ':' :: l2 =>
      match l2.dropWhile pySpace with
      | q :: l3 =>
        if isQuote q then
          let content := l3.takeWhile (fun c => !isQuote c)
          match l3.dropWhile (fun c => !isQuote c) with
          | _ :: rest2 =>
            if occursIn m3u8Chars content.tail then some (content, rest2) else none
          | [] => none
        else none
      | [] => none
    | _ => none
  else none

/-- One attempt of the general URL pattern: the literal http, an optional s,
the literal colon-slash-slash, then the maximal run of characters that are
neither quotes nor whitespace; the run must contain the manifest extension at
an index of at least one.  The whole match is emitted. -/
def attemptGeneral (l : List Char) : Option (List Char × List Char) :=
  if "http".toList.isPrefixOf l then
    let l1 := l.drop 4
    let sPart : List Char × List Char :=
      match l1 with
      | 's' :: rest => (['s'], rest)
      | _ => ([], l1)
    if "://".toList.isPrefixOf sPart.2 then
      let l2 := sPart.2.drop 3
      let run := l2.takeWhile (fun c => !(isQuote c || pySpace c))
      let rest := l2.dropWhile (fun c => !(isQuote c || pySpace c))
      if occursIn m3u8Chars run.tail then
        some ("http".toList ++ sPart.1 ++ "://".toList ++ run, rest)
      else none
    else none
  else none

/-- One attempt of the aggressive URL pattern: like the general pattern but an
immediately adjacent quote at either end is consumed by the match while the
captured group stays the bare URL. -/
def attemptAggr (l : List Char) : Option (List Char × List Char) :=
  let start :=
    match l with
    | c :: rest => if isQuote c then rest else l
    | [] => l
  match attemptGeneral start with
  | some m =>
    let rest2 :=
      match m.2 with
      | c :: r => if isQuote c then r else m.2
      | [] => m.2
    some (m.1, rest2)
  | none => none

/-- The duplicate-removal loop of the extractor (and, at the orchestration
level, dict.fromkeys): keep the first occurrence of each string, preserving
order. -/
def dedupSeen (seen : List String) : List String → List String
  | [] => []
  | x :: xs => if x ∈ seen then dedupSeen seen xs else x :: dedupSeen (x :: seen) xs

/-- First-occurrence deduplication of a link list. -/
def dedupLinks (l : List String) : List String := dedupSeen [] l

/-- Structured pass of VideoScraper.extract_m3u8_links: the file values inside
the first sources array, when one exists. -/
def structuredLinks (unpacked_js : String) : List String :=
  match findSourcesAux unpacked_js.toList with
  | some src => (pyFindall attemptFile src).map String.mk
  | none => []

/-- Generic fallback pass of VideoScraper.extract_m3u8_links, run over the
whole unpacked text. -/
def generalLinks (unpacked_js : String) : List String :=
  (pyFindall attemptGeneral unpacked_js.toList).map String.mk

/-- VideoScraper.extract_m3u8_links: structured-pass results first, generic
results appended after them, first-occurrence deduplication at the end. -/
def extract_m3u8_links (unpacked_js : String) : List String :=
  dedupLinks (structuredLinks unpacked_js ++ generalLinks unpacked_js)

/-- The aggressive pattern the orchestrator applies to a script whose standard
extraction produced no links. -/
def aggressiveLinks (unpacked_js : String) : List String :=
  (pyFindall attemptAggr unpacked_js.toList).map String.mk

/-- VideoScraper.unpack_js.  The two execjs sandbox calls are oracles `prim`
and `sec` (exception message on the error side).  A primary result whose
length is below one hundred characters (the empty result included, which also
covers the Python falsy check) makes the code fall through to the secondary
call, whose result is returned unchanged; any exception is caught and the
function returns `none`, the model of the Python value None. -/
def unpack_js (prim sec : String → Except String String) (packed_js : String) :
    Option String :=
  match prim packed_js with
  | .error _ => none
  | .ok unpacked =>
    if unpacked.length < 100 then
      match sec packed_js with
      | .error _ => none
      | .ok u2 => some u2
    else some unpacked

/-- Python str.startswith, on the character lists of the two strings. -/
def pyStartsWith (s pre : String) : Bool := pre.toList.isPrefixOf s.toList

/-- Third-resort unpacking step of the orchestrator loop: the execjs call is
the oracle `ter`; a Python-level exception, an empty result or a result whose
text begins with the literal Error: all make the script be skipped. -/
def tertiaryStep (ter : String → Except String String) (script : String) :
    Option String :=
  match ter script with
  | .error _ => none
  | .ok u => if u ≠ "" ∧ pyStartsWith u "Error:" = false then some u else none

/-- Per-script unpacking as the orchestrator loop performs it: the unpack_js
result when it is truthy, otherwise the third-resort step; `none` means the
script is skipped with continue. -/
def processOne (prim sec ter : String → Except String String) (script : String) :
    Option String :=
  match unpack_js prim sec script with
  | some u => if u = "" then tertiaryStep ter script else some u
  | none => tertiaryStep ter script

/-- Links a single packed script contributes to the aggregate: nothing when the
script is skipped; otherwise the standard extraction result, or the aggressive
pattern result when the standard passes found nothing. -/
def scriptLinks (prim sec ter : String → Except String String) (script : String) :
    List String :=
  match processOne prim sec ter script with
  | none => []
  | some u =>
    let ls := extract_m3u8_links u
    if ls = [] then aggressiveLinks u else ls

/-- The aggregation loop over all packed scripts, in order. -/
def gatherLinks (prim sec ter : String → Except String String) :
    List String → List String
  | [] => []
  | s :: rest => scriptLinks prim sec ter s ++ gatherLinks prim sec ter rest

/-- One outbound request the fetch step can make, identified by its timeout in
seconds and whether the alternate header profile is used. -/
structure FetchCall where
  timeoutSec : Nat
  altHeaders : Bool
deriving DecidableEq

/-- Outcome of one outbound request, as the network oracle reports it. -/
inductive AttemptResult where
  | timeout
  | connError (msg : String)
  | httpResponse (status : Nat) (body : String)
deriving DecidableEq

/-- The requests-library exceptions the fetch step can raise. -/
inductive ReqError where
  | timeoutErr
  | connErr (msg : String)
  | httpErr (status : Nat)
deriving DecidableEq

/-- response.raise_for_status: raises for a client-error or server-error
status, in the four-hundreds or five-hundreds; every other status returns the
body. -/
def raiseForStatus (status : Nat) (body : String) : Except ReqError String :=
  if 400 ≤ status ∧ status < 600 then .error (.httpErr status) else .ok body

/-- One get call followed by raise_for_status, with the exception as the error
side. -/
def doAttempt : AttemptResult → Except ReqError String
  | .timeout => .error .timeoutErr
  | .connError m => .error (.connErr m)
  | .httpResponse st body => raiseForStatus st body

/-- The fetch step of the orchestrator: a first attempt with a thirty-second
timeout; on a timeout exception one retry with a sixty-second timeout; on a
connection error one retry with the alternate header profile; an HTTP error
status raised by raise_for_status is never retried.  The second component logs
the calls actually made, in order. -/
def fetchPage (net : FetchCall → AttemptResult) :
    Except ReqError String × List FetchCall :=
  let c1 : FetchCall := ⟨30, false⟩
  match net c1 with
  | .timeout =>
    let c2 : FetchCall := ⟨60, false⟩
    (doAttempt (net c2), [c1, c2])
  | .connError _ =>
    let c3 : FetchCall := ⟨60, true⟩
    (doAttempt (net c3), [c1, c3])
  | .httpResponse st body => (raiseForStatus st body, [c1])

/-- The M3U8Response pydantic model, with its field defaults. -/
structure M3U8Response where
  success : Bool
  slug : Option String := none
  total_packed_scripts : Option Nat := none
  m3u8_links : List String := []
  count : Nat := 0
  error : Option String := none
deriving DecidableEq

/-- Exceptions the orchestrator body can raise: a requests exception from the
fetch step, or any other exception. -/
inductive PyExn where
  | reqExn (e : ReqError)
  | otherExn (msg : String)
deriving DecidableEq

/-- Stringification of a requests exception, modelling str(e). -/
def reqErrStr : ReqError → String
  | .timeoutErr => "Read timed out"
  | .connErr m => "Connection error " ++ m
  | .httpErr st => toString st ++ " Error for url"

/-- Stringification of an orchestrator-level exception. -/
def pyExnStr : PyExn → String
  | .reqExn e => reqErrStr e
  | .otherExn m => m

/-- The body of VideoScraper.get_m3u8_from_source inside its try block: slug
resolution with the Python falsy test, the fetch step whose exceptions
propagate to the handlers, the locator, the per-script loop, aggregation-level
deduplication, and the final success or failure response. -/
def orchestrate_body (prim sec ter : String → Except String String)
    (net : FetchCall → AttemptResult) (url : String) : Except PyExn M3U8Response :=
  match extract_slug_from_url url with
  | none => .ok { success := false, error := some "Could not extract slug from URL" }
  | some slug =>
    if slug = "" then
      .ok { success := false, error := some "Could not extract slug from URL" }
    else
      match (fetchPage net).1 with
      | .error e => .error (.reqExn e)
      | .ok body =>
        let packed := find_eval_packed_js body
        if packed = [] then
          .ok { success := false, error := some "No eval-packed scripts found" }
        else
          let uniq := dedupLinks (gatherLinks prim sec ter packed)
          if uniq = [] then
            .ok { success := false, slug := some slug,
                  total_packed_scripts := some packed.length,
                  error := some "No m3u8 links found in any scripts" }
          else
            .ok { success := true, slug := some slug,
                  total_packed_scripts := some packed.length,
                  m3u8_links := uniq, count := uniq.length }

/-- VideoScraper.get_m3u8_from_source: the body wrapped in the two exception
handlers, which turn any raised exception into a failure response embedding
the stringified exception. -/
def get_m3u8_from_source (prim sec ter : String → Except String String)
    (net : FetchCall → AttemptResult) (url : String) : M3U8Response :=
  match orchestrate_body prim sec ter net url with
  | .ok r => r
  | .error (.reqExn e) =>
    { success := false, error := some ("Request error: " ++ reqErrStr e) }
  | .error (.otherExn m) =>
    { success := false, error := some ("Unexpected error: " ++ m) }

/-! Helper lemmas. -/

theorem mem_dedupSeen_not_seen (l : List String) :
    ∀ (seen : List String) (x : String), x ∈ dedupSeen seen l → x ∉ seen := by
  induction l with
  | nil => intro seen x h; simp [dedupSeen] at h
  | cons a as ih =>
    intro seen x h
    by_cases ha : a ∈ seen
    · rw [dedupSeen, if_pos ha] at h
      exact ih seen x h
    · rw [dedupSeen, if_neg ha] at h
      rcases List.mem_cons.mp h with rfl | hm
      · exact ha
      · intro hx
        exact ih (a :: seen) x hm (List.mem_cons_of_mem a hx)

theorem dedupSeen_nodup (l : List String) : ∀ seen, (dedupSeen seen l).Nodup := by
  induction l with
  | nil => intro seen; simp [dedupSeen]
  | cons a as ih =>
    intro seen
    by_cases ha : a ∈ seen
    · rw [dedupSeen, if_pos ha]; exact ih seen
    · rw [dedupSeen, if_neg ha]
      refine List.nodup_cons.mpr ⟨?_, ih (a :: seen)⟩
      intro hmem
      exact mem_dedupSeen_not_seen as (a :: seen) a hmem (List.mem_cons_self a seen)

theorem gatherLinks_eq_nil (prim sec ter : String → Except String String) :
    ∀ l : List String, (∀ s ∈ l, scriptLinks prim sec ter s = []) →
      gatherLinks prim sec ter l = [] := by
  intro l
  induction l with
  | nil => intro _; rfl
  | cons x xs ih =>
    intro h
    rw [gatherLinks, h x (List.mem_cons_self x xs),
      ih (fun s hs => h s (List.mem_cons_of_mem x hs))]
    rfl

theorem isPrefixOf_append_drop (pre : List Char) :
    ∀ s, pre.isPrefixOf s = true → s = pre ++ s.drop pre.length := by
  induction pre with
  | nil => intro s _; simp
  | cons c cs ih =>
    intro s h
    cases s with
    | nil => simp [List.isPrefixOf] at h
    | cons d ds =>
      simp only [List.isPrefixOf, Bool.and_eq_true, beq_iff_eq] at h
      obtain ⟨rfl, h2⟩ := h
      simp only [List.length_cons, List.drop_succ_cons, List.cons_append,
        List.cons.injEq, true_and]
      exact ih ds h2

theorem splitAtClose_none_occursIn (t : List Char) :
    splitAtClose t = none → occursIn [')', ')'] t = false := by
  induction t with
  | nil => intro _; rfl
  | cons c rest ih =>
    intro h
    rw [splitAtClose.eq_def] at h
    split at h
    · cases h
    · rename_i x0 cc rr hg hcons
      injection hcons with hc1 hc2
      subst hc1
      subst hc2
      have hrest : splitAtClose rest = none := by
        cases hr : splitAtClose rest with
        | none => rfl
        | some p => rw [hr] at h; cases h
      have hpre : ([')', ')'] : List Char).isPrefixOf (c :: rest) = false := by
        cases rest with
        | nil => simp [List.isPrefixOf]
        | cons d ds =>
          simp only [List.isPrefixOf, Bool.and_eq_true, beq_iff_eq,
            Bool.and_eq_false_imp]
          by_cases h1 : c = ')'
          · by_cases h2 : d = ')'
            · exact (hg ds h1 (by rw [h2])).elim
            · simp [List.isPrefixOf, h1, Ne.symm h2]
          · simp [List.isPrefixOf, Ne.symm h1]
      rw [occursIn, hpre, ih hrest]
      rfl
    · rename_i x1 hcontra
      cases hcontra

theorem splitAtClose_some_spec (t : List Char) :
    ∀ a b, splitAtClose t = some (a, b) →
      t = a ++ b ∧
      ∃ a0, a = a0 ++ [')', ')'] ∧ occursIn [')', ')'] (a0 ++ [')']) = false := by
  induction t with
  | nil =>
    intro a b h
    rw [splitAtClose] at h
    cases h
  | cons c rest ih =>
    intro a b h
    rw [splitAtClose.eq_def] at h
    split at h
    · rename_i rr hcons
      cases h
      exact ⟨hcons, ⟨[], rfl, by decide⟩⟩
    · rename_i x0 cc rr hg hcons
      injection hcons with hc1 hc2
      subst hc1
      subst hc2
      split at h
      · rename_i p heq
        cases h
        obtain ⟨hdec, a0, ha, hocc⟩ := ih p.1 p.2 heq
        refine ⟨by rw [List.cons_append, ← hdec], ⟨c :: a0, ?_, ?_⟩⟩
        · rw [ha, List.cons_append]
        · rw [List.cons_append, occursIn, hocc]
          have hpre : ([')', ')'] : List Char).isPrefixOf (c :: (a0 ++ [')'])) = false := by
            cases ha0 : a0 with
            | nil =>
              by_cases h1 : c = ')'
              · subst h1
                exfalso
                have hrest : rest = ')' :: (')' :: p.2) := by
                  rw [hdec, ha, ha0]
                  rfl
                exact hg (')' :: p.2) rfl hrest
              · simp [List.isPrefixOf, Ne.symm h1]
            | cons d ds =>
              by_cases h1 : c = ')'
              · subst h1
                by_cases h2 : d = ')'
                · exfalso
                  have hrest : rest = ')' :: (ds ++ [')', ')'] ++ p.2) := by
                    rw [hdec, ha, ha0, h2]
                    rfl
                  exact hg _ rfl hrest
                · simp [List.isPrefixOf, Ne.symm h2]
              · simp [List.isPrefixOf, Ne.symm h1]
          rw [hpre]
          rfl
      · cases h
    · cases h

theorem attemptEval_some_spec (s m r : List Char) (h : attemptEval s = some (m, r)) :
    s = m ++ r ∧ isLazyMatch m := by
  unfold attemptEval at h
  split at h
  · rename_i hpre
    cases hq : splitAtClose (s.drop sigEval.length) with
    | none => rw [hq] at h; cases h
    | some q =>
      rw [hq] at h
      cases h
      obtain ⟨hdec, a0, ha, hocc⟩ := splitAtClose_some_spec _ q.1 q.2 hq
      constructor
      · rw [List.append_assoc, ← hdec]
        exact isPrefixOf_append_drop sigEval s hpre
      · exact ⟨a0, by rw [ha, List.append_assoc], hocc⟩
  · cases h

theorem attemptEval_none_spec (s : List Char) (h : attemptEval s = none) :
    ¬ lazyMatchExists s := by
  rintro ⟨h1, h2⟩
  unfold attemptEval at h
  rw [h1] at h
  simp only [if_pos rfl] at h
  cases hq : splitAtClose (s.drop sigEval.length) with
  | none => rw [splitAtClose_none_occursIn _ hq] at h2; cases h2
  | some p => rw [hq] at h; cases h

theorem isLazyMatch_ne_nil (m : List Char) (h : isLazyMatch m) : m ≠ [] := by
  obtain ⟨a0, rfl, _⟩ := h
  intro hnil
  have := congrArg List.length hnil
  simp [sigEval] at this

theorem not_lazyMatchExists_nil : ¬ lazyMatchExists [] := by
  rintro ⟨h1, _⟩
  exact absurd h1 (by decide)

theorem noMatchAnywhere_nil : noMatchAnywhere [] := by
  intro p s hps hex
  have hs : s = [] := (List.append_eq_nil.mp hps.symm).2
  subst hs
  exact not_lazyMatchExists_nil hex

theorem LazyFindall_cons_no (c : Char) (t : List Char) (ms : List (List Char))
    (hlf : LazyFindall t ms) (hno : ¬ lazyMatchExists (c :: t)) :
    LazyFindall (c :: t) ms := by
  cases hlf with
  | nil _ hna =>
    refine LazyFindall.nil _ ?_
    intro p s hps hex
    cases p with
    | nil =>
      have hs : s = c :: t := hps.symm
      subst hs
      exact hno hex
    | cons c0 p' =>
      injection hps with hh1 hh2
      exact hna p' s hh2 hex
  | cons pre m rest ms' h1 h2 h3 =>
    have hrw : c :: (pre ++ (m ++ rest)) = (c :: pre) ++ (m ++ rest) := rfl
    rw [hrw]
    refine LazyFindall.cons (c :: pre) m rest ms' h1 ?_ h3
    intro p s hps hsne hex
    cases p with
    | nil =>
      have hs : s = c :: pre := hps.symm
      subst hs
      exact hno hex
    | cons c0 p' =>
      injection hps with hh1 hh2
      exact h2 p' s hh2 hsne hex

theorem scanEval_lazyFindall (fuel : Nat) :
    ∀ l : List Char, l.length ≤ fuel →
      LazyFindall l (scanFindall attemptEval fuel l) := by
  induction fuel with
  | zero =>
    intro l hl
    have hnil : l = [] := List.eq_nil_of_length_eq_zero (Nat.le_zero.mp hl)
    subst hnil
    exact LazyFindall.nil [] noMatchAnywhere_nil
  | succ f ih =>
    intro l hl
    cases l with
    | nil => exact LazyFindall.nil [] noMatchAnywhere_nil
    | cons c rest =>
      rw [scanFindall]
      cases ha : attemptEval (c :: rest) with
      | some p =>
        obtain ⟨hdec, hlm⟩ := attemptEval_some_spec (c :: rest) p.1 p.2 ha
        have hm : p.1 ≠ [] := isLazyMatch_ne_nil p.1 hlm
        have hlens : (c :: rest).length = p.1.length + p.2.length := by
          rw [hdec, List.length_append]
        have h1 : 0 < p.1.length := List.length_pos.mpr hm
        have hlen : p.2.length ≤ f := by
          have := List.length_cons c rest
          omega
        have htail := ih p.2 hlen
        have hcons := LazyFindall.cons [] p.1 p.2 _ hlm
          (by
            intro p' s hps hsne _
            exact hsne (List.append_eq_nil.mp hps.symm).2)
          htail
        rw [hdec]
        exact hcons
      | none =>
        have hlen : rest.length ≤ f := by
          have := List.length_cons c rest
          omega
        exact LazyFindall_cons_no c rest _ (ih rest hlen)
          (attemptEval_none_spec _ ha)

theorem scanEval_no_sig (fuel : Nat) :
    ∀ l : List Char, occursIn sigEval l = false →
      scanFindall attemptEval fuel l = [] := by
  induction fuel with
  | zero => intro l _; rfl
  | succ f ih =>
    intro l h
    cases l with
    | nil => rfl
    | cons c rest =>
      rw [occursIn] at h
      have h2 := Bool.or_eq_false_iff.mp h
      have ha : attemptEval (c :: rest) = none := by
        unfold attemptEval
        rw [h2.1]
        simp
      rw [scanFindall, ha]
      exact ih rest h2.2

theorem body_ok_inv (prim sec ter : String → Except String String)
    (net : FetchCall → AttemptResult) (url : String) (r : M3U8Response)
    (h : orchestrate_body prim sec ter net url = .ok r) :
    (r.success = true ↔
      (r.error = none ∧ r.count = r.m3u8_links.length ∧ 0 < r.count)) := by
  simp only [orchestrate_body] at h
  split at h
  · cases h; simp
  · split at h
    · cases h; simp
    · split at h
      · simp at h
      · split at h
        · cases h; simp
        · split at h
          · cases h; simp
          · cases h
            rename_i huniq
            simp [List.length_pos.mpr huniq]

/-! Claim theorems. -/

/-- C1: for every result of the orchestrator, success is true exactly when the
error field is absent, count equals the length of the link list, and that
count is positive; a zero-link outcome is never reported as a success with an
empty list. -/
theorem c1_success_iff_nonempty_links (prim sec ter : String → Except String String)
    (net : FetchCall → AttemptResult) (url : String) :
    (get_m3u8_from_source prim sec ter net url).success = true ↔
    ((get_m3u8_from_source prim sec ter net url).error = none ∧
     (get_m3u8_from_source prim sec ter net url).count =
       (get_m3u8_from_source prim sec ter net url).m3u8_links.length ∧
     0 < (get_m3u8_from_source prim sec ter net url).count) := by
  cases h : orchestrate_body prim sec ter net url with
  | ok r =>
    unfold get_m3u8_from_source
    rw [h]
    exact body_ok_inv prim sec ter net url r h
  | error e =>
    unfold get_m3u8_from_source
    rw [h]
    cases e <;> simp

/-- C3 counterexample: on a concrete page whose packed call contains an inner
double closing parenthesis, the locator stops at that first occurrence and
returns a substring that is NOT extended through to the balanced closing of
the call, differing from the spec-modelled balanced locator. -/
theorem c3_lazy_not_balanced_cex :
    find_eval_packed_js
        "eval(function(p,a,c,k,e,d)\x7breturn p.replace(a(b))\x7d(0))" =
      ["eval(function(p,a,c,k,e,d)\x7breturn p.replace(a(b))"] ∧
    find_eval_packed_js_spec
        "eval(function(p,a,c,k,e,d)\x7breturn p.replace(a(b))\x7d(0))" =
      ["eval(function(p,a,c,k,e,d)\x7breturn p.replace(a(b))\x7d(0))"] ∧
    find_eval_packed_js
        "eval(function(p,a,c,k,e,d)\x7breturn p.replace(a(b))\x7d(0))" ≠
      find_eval_packed_js_spec
        "eval(function(p,a,c,k,e,d)\x7breturn p.replace(a(b))\x7d(0))" := by
  decide

/-- C3 as amended: the locator returns, in order of appearance, all
non-overlapping substrings that begin at the fixed packing-function signature
and extend lazily through to the first following double closing parenthesis
(not to the balanced closing); the characterisation LazyFindall states that
the text decomposes into gaps and exactly the returned matches, in order and
non-overlapping, that each match is the signature plus a tail containing the
double closing parenthesis only as its final two characters, and that no
position inside a gap admits a match, so none is missed and each match is
leftmost; a text containing no occurrence of the signature yields the empty
sequence rather than an error. -/
theorem c3_locator_matches (html : String) :
    find_eval_packed_js html = (pyFindall attemptEval html.toList).map String.mk ∧
    LazyFindall html.toList (pyFindall attemptEval html.toList) ∧
    (occursIn sigEval html.toList = false → find_eval_packed_js html = []) := by
  refine ⟨rfl, ?_, ?_⟩
  · exact scanEval_lazyFindall html.toList.length html.toList (Nat.le_refl _)
  · intro h
    unfold find_eval_packed_js pyFindall
    rw [scanEval_no_sig _ _ h]
    rfl

theorem c3_locator_matches_witness :
    LazyFindall "eval(function(p,a,c,k,e,d)X))".toList
      (pyFindall attemptEval "eval(function(p,a,c,k,e,d)X))".toList) ∧
    find_eval_packed_js "a plain page" = [] :=
  ⟨(c3_locator_matches "eval(function(p,a,c,k,e,d)X))").2.1,
   (c3_locator_matches "a plain page").2.2 (by decide)⟩

/-- C7: the failure of a single script to unpack is non-fatal: the
orchestrator skips it and keeps the contributions of the remaining scripts,
and when every script yields nothing the request fails with the no-links
error while still reporting the number of packed scripts. -/
theorem c7_skip_failed_scripts :
    (∀ (prim sec ter : String → Except String String) (x : String) (rest : List String),
        processOne prim sec ter x = none →
        gatherLinks prim sec ter (x :: rest) = gatherLinks prim sec ter rest) ∧
    (∀ (prim sec ter : String → Except String String) (net : FetchCall → AttemptResult)
        (url slug body : String),
        extract_slug_from_url url = some slug → slug ≠ "" →
        (fetchPage net).1 = Except.ok body →
        find_eval_packed_js body ≠ [] →
        (∀ s ∈ find_eval_packed_js body, scriptLinks prim sec ter s = []) →
        get_m3u8_from_source prim sec ter net url =
          { success := false, slug := some slug,
            total_packed_scripts := some (find_eval_packed_js body).length,
            m3u8_links := [], count := 0,
            error := some "No m3u8 links found in any scripts" }) := by
  constructor
  · intro prim sec ter x rest h
    rw [gatherLinks]
    simp [scriptLinks, h]
  · intro prim sec ter net url slug body h1 h2 h3 h4 h5
    have hall : gatherLinks prim sec ter (find_eval_packed_js body) = [] :=
      gatherLinks_eq_nil prim sec ter _ h5
    unfold get_m3u8_from_source orchestrate_body
    rw [h1, h3]
    simp [h2, h4, hall, dedupLinks, dedupSeen]

theorem c7_skip_failed_scripts_witness :
    gatherLinks (fun _ => Except.error "boom") (fun _ => Except.error "boom")
        (fun _ => Except.ok "Error: no") ("s1" :: ["s2"]) =
      gatherLinks (fun _ => Except.error "boom") (fun _ => Except.error "boom")
        (fun _ => Except.ok "Error: no") ["s2"] ∧
    get_m3u8_from_source (fun _ => Except.error "boom") (fun _ => Except.error "boom")
        (fun _ => Except.ok "Error: no")
        (fun _ => AttemptResult.httpResponse 200
          "eval(function(p,a,c,k,e,d)x))eval(function(p,a,c,k,e,d)y))")
        "https://host/a/slug1" =
      { success := false, slug := some "slug1", total_packed_scripts := some 2,
        m3u8_links := [], count := 0,
        error := some "No m3u8 links found in any scripts" } :=
  ⟨c7_skip_failed_scripts.1 _ _ _ "s1" ["s2"] (by decide),
   c7_skip_failed_scripts.2 _ _ _ _ _ "slug1"
     "eval(function(p,a,c,k,e,d)x))eval(function(p,a,c,k,e,d)y))"
     (by decide) (by decide) (by decide) (by decide) (by decide)⟩

/-- C5: when the primary unpacking strategy yields a result that is empty or
shorter than the hundred-character minimum-length threshold, unpack_js falls
through to the secondary strategy and returns the output of the secondary
strategy, not the short primary output. -/
theorem c5_short_primary_falls_through
    (prim sec : String → Except String String) (packed r r2 : String)
    (h1 : prim packed = .ok r) (h2 : r.length < 100)
    (h3 : sec packed = .ok r2) :
    unpack_js prim sec packed = some r2 := by
  unfold unpack_js
  rw [h1]
  simp [h2, h3]

theorem c5_short_primary_falls_through_witness :
    unpack_js (fun _ => Except.ok "short") (fun _ => Except.ok "SECONDARY RESULT")
      "packed" = some "SECONDARY RESULT" :=
  c5_short_primary_falls_through _ _ "packed" "short" "SECONDARY RESULT" rfl
    (by decide) rfl

/-- C9: the minimum-length acceptance check applies only to the primary
strategy: a non-empty secondary result below one hundred characters is
returned unchanged by unpack_js, and the per-script loop takes it as truthy
without trying the third strategy. -/
theorem c9_min_length_primary_only
    (prim sec ter : String → Except String String) (packed r r2 : String)
    (h1 : prim packed = .ok r) (h2 : r.length < 100)
    (h3 : sec packed = .ok r2) (h4 : r2 ≠ "") (h5 : r2.length < 100) :
    unpack_js prim sec packed = some r2 ∧
    processOne prim sec ter packed = some r2 := by
  have hu : unpack_js prim sec packed = some r2 := by
    unfold unpack_js
    rw [h1]
    simp [h2, h3]
  refine ⟨hu, ?_⟩
  unfold processOne
  rw [hu]
  simp [h4]

theorem c9_min_length_primary_only_witness :
    unpack_js (fun _ => Except.ok "short") (fun _ => Except.ok "tiny") "packed" =
      some "tiny" ∧
    processOne (fun _ => Except.ok "short") (fun _ => Except.ok "tiny")
      (fun _ => Except.error "unused") "packed" = some "tiny" :=
  c9_min_length_primary_only _ _ _ "packed" "short" "tiny" rfl (by decide) rfl
    (by decide) (by decide)

/-- C10: a third-strategy result that is empty or begins with the literal
Error: makes the script be skipped, even when the text is a legitimately
recovered script that merely starts with that prefix, and such a result is
never passed to link extraction. -/
theorem c10_tertiary_error_prefix_skip
    (prim sec ter : String → Except String String) (script u : String)
    (h1 : unpack_js prim sec script = none ∨ unpack_js prim sec script = some "")
    (h2 : ter script = .ok u)
    (h3 : u = "" ∨ pyStartsWith u "Error:" = true) :
    processOne prim sec ter script = none ∧
    scriptLinks prim sec ter script = [] := by
  have ht : tertiaryStep ter script = none := by
    unfold tertiaryStep
    rw [h2]
    rcases h3 with h | h <;> simp [h]
  have hp : processOne prim sec ter script = none := by
    unfold processOne
    rcases h1 with h | h <;> rw [h] <;> simp [ht]
  exact ⟨hp, by unfold scriptLinks; rw [hp]⟩

theorem c10_tertiary_error_prefix_skip_witness :
    processOne (fun _ => Except.error "primary failed")
      (fun _ => Except.error "secondary failed")
      (fun _ => Except.ok "Error: looking text of a recovered script") "packed" =
      none ∧
    scriptLinks (fun _ => Except.error "primary failed")
      (fun _ => Except.error "secondary failed")
      (fun _ => Except.ok "Error: looking text of a recovered script") "packed" =
      [] :=
  c10_tertiary_error_prefix_skip _ _ _ "packed"
    "Error: looking text of a recovered script" (Or.inl rfl) rfl
    (Or.inr (by decide))

/-- C8: every exception raised inside the orchestrator body is caught by the
handlers and turned into a well-formed response with success false and an
error string that embeds the stringified exception; no exception propagates
to the caller. -/
theorem c8_exception_to_response
    (prim sec ter : String → Except String String)
    (net : FetchCall → AttemptResult) (url : String) (e : PyExn)
    (h : orchestrate_body prim sec ter net url = .error e) :
    (get_m3u8_from_source prim sec ter net url).success = false ∧
    ∃ p, (get_m3u8_from_source prim sec ter net url).error =
      some (p ++ pyExnStr e) := by
  unfold get_m3u8_from_source
  rw [h]
  cases e with
  | reqExn e0 => exact ⟨rfl, ⟨"Request error: ", rfl⟩⟩
  | otherExn m => exact ⟨rfl, ⟨"Unexpected error: ", rfl⟩⟩

theorem c8_exception_to_response_witness :
    (get_m3u8_from_source (fun _ => Except.error "x") (fun _ => Except.error "x")
      (fun _ => Except.error "x") (fun _ => AttemptResult.timeout)
      "https://host/a/slug1").success = false ∧
    ∃ p, (get_m3u8_from_source (fun _ => Except.error "x") (fun _ => Except.error "x")
      (fun _ => Except.error "x") (fun _ => AttemptResult.timeout)
      "https://host/a/slug1").error =
        some (p ++ pyExnStr (PyExn.reqExn ReqError.timeoutErr)) :=
  c8_exception_to_response _ _ _ _ "https://host/a/slug1"
    (PyExn.reqExn ReqError.timeoutErr) (by decide)

/-- C2: slug resolution returns the last path segment for a non-empty path,
but for an empty path it returns the empty string rather than the value of
the id query parameter: since str.split with a separator never yields an
empty list, the query-parameter branch is unreachable, and the orchestrator
then fails on the falsy empty slug.  The second and third conjuncts exhibit
the divergence from the claimed behaviour at the claimed inputs. -/
theorem c2_slug_query_branch_dead :
    extract_slug_from_url "https://host/a/b/slug123" = some "slug123" ∧
    extract_slug_from_url "https://host/?id=xyz" = some "" ∧
    extract_slug_from_url "https://host/?id=xyz" ≠ some "xyz" ∧
    extract_slug_from_url "https://host/" = some "" ∧
    (get_m3u8_from_source (fun _ => Except.error "e") (fun _ => Except.error "e")
      (fun _ => Except.error "e") (fun _ => AttemptResult.timeout)
      "https://host/?id=xyz").error = some "Could not extract slug from URL" := by
  decide

/-- C4: the link extractor returns the structured-pass results first with the
generic URL-pattern results appended after them, deduplicated by exact string
match preserving first-seen order; the two concrete examples of the claim
evaluate as claimed, and the output never contains a duplicate. -/
theorem c4_extract_order_dedup :
    extract_m3u8_links
        "var a = \x7bsources:[\x7bfile:\"x.m3u8\"\x7d]\x7d; var b = \"http://y.com/y.m3u8\";" =
      ["x.m3u8", "http://y.com/y.m3u8"] ∧
    dedupLinks ["a.m3u8", "b.m3u8", "a.m3u8"] = ["a.m3u8", "b.m3u8"] ∧
    (∀ u : String,
      extract_m3u8_links u = dedupLinks (structuredLinks u ++ generalLinks u)) ∧
    (∀ u : String, (extract_m3u8_links u).Nodup) :=
  ⟨by decide, by decide, fun _ => rfl, fun u => dedupSeen_nodup _ []⟩

/-- C6 counterexample: a non-2xx status below four hundred, here 304, is not
retried but also does not terminate the fetch as a failure: raise_for_status
raises only for the four-hundreds and five-hundreds, so the body is returned
as a success, contradicting the claim that every non-2xx status terminates
the fetch as a failure carrying the HTTP status. -/
theorem c6_non2xx_success_cex :
    (fetchPage (fun _ => AttemptResult.httpResponse 304 "body")).1 =
      Except.ok "body" ∧
    ¬ (200 ≤ 304 ∧ 304 < 300) ∧
    (fetchPage (fun _ => AttemptResult.httpResponse 304 "body")).2 =
      [⟨30, false⟩] := by
  decide

/-- C6 as amended: the fetch step performs at most one retry and always starts
with the thirty-second attempt; a returned HTTP response is never retried, a
status in the four-hundreds or five-hundreds terminates the fetch as a failure
carrying that status, and any other status is returned as the fetched body; a
timeout of the first attempt leads to exactly one retry with the sixty-second
timeout, and a connection error of the first attempt to exactly one retry with
the alternate header profile, the retry outcome becoming the result. -/
theorem c6_retry_policy (net : FetchCall → AttemptResult) :
    (fetchPage net).2.length ≤ 2 ∧
    (fetchPage net).2.head? = some ⟨30, false⟩ ∧
    (∀ st body, net ⟨30, false⟩ = .httpResponse st body →
      (fetchPage net).2 = [⟨30, false⟩] ∧
      (400 ≤ st → st < 600 → (fetchPage net).1 = .error (.httpErr st)) ∧
      (¬ (400 ≤ st ∧ st < 600) → (fetchPage net).1 = .ok body)) ∧
    (net ⟨30, false⟩ = .timeout →
      (fetchPage net).2 = [⟨30, false⟩, ⟨60, false⟩] ∧
      (fetchPage net).1 = doAttempt (net ⟨60, false⟩)) ∧
    (∀ m, net ⟨30, false⟩ = .connError m →
      (fetchPage net).2 = [⟨30, false⟩, ⟨60, true⟩] ∧
      (fetchPage net).1 = doAttempt (net ⟨60, true⟩)) := by
  cases h : net ⟨30, false⟩ with
  | timeout =>
    refine ⟨by simp [fetchPage, h], by simp [fetchPage, h], ?_, ?_, ?_⟩
    · intro st body heq
      cases heq
    · intro _
      exact ⟨by simp [fetchPage, h], by simp [fetchPage, h]⟩
    · intro m heq
      cases heq
  | connError m0 =>
    refine ⟨by simp [fetchPage, h], by simp [fetchPage, h], ?_, ?_, ?_⟩
    · intro st body heq
      cases heq
    · intro heq
      cases heq
    · intro m heq
      exact ⟨by simp [fetchPage, h], by simp [fetchPage, h]⟩
  | httpResponse st0 b0 =>
    refine ⟨by simp [fetchPage, h], by simp [fetchPage, h], ?_, ?_, ?_⟩
    · intro st body heq
      cases heq
      refine ⟨by simp [fetchPage, h], ?_, ?_⟩
      · intro hlo hhi
        simp [fetchPage, h, raiseForStatus, hlo, hhi]
      · intro hout
        simp [fetchPage, h, raiseForStatus, hout]
    · intro heq
      cases heq
    · intro m heq
      cases heq

theorem c6_retry_policy_witness :
    (fetchPage (fun _ => AttemptResult.httpResponse 500 "b")).2 = [⟨30, false⟩] ∧
    (fetchPage (fun _ => AttemptResult.httpResponse 500 "b")).1 =
      Except.error (ReqError.httpErr 500) ∧
    (fetchPage (fun _ => AttemptResult.timeout)).2 = [⟨30, false⟩, ⟨60, false⟩] :=
  ⟨((c6_retry_policy _).2.2.1 500 "b" rfl).1,
   ((c6_retry_policy _).2.2.1 500 "b" rfl).2.1 (by decide) (by decide),
   ((c6_retry_policy _).2.2.2.1 rfl).1⟩

end Scraper
